import Mathlib

/-!
Verification of `bard.py`, a script that fetches a GitHub README and pipes it
to an external lyric-generation tool.  Strings are modelled as `List Char`
(Python `str` is a sequence of code points), the network and the external
tool as explicit response oracles, and `sys.exit` / unhandled exceptions as
explicit outcome constructors.
-/

namespace Bard

/-- The apostrophe character, used inside several message literals. -/
def apos : Char := Char.ofNat 39

/-- Python `s.rstrip("/")`: remove every trailing slash. -/
def rstripSlash (s : List Char) : List Char :=
  ((s.reverse).dropWhile (fun c => c = '/')).reverse

/-- Python `s.replace(".git", "")`: left-to-right, non-overlapping removal of
every occurrence of the four-character substring `.git`. -/
def removeGit : List Char → List Char
  | [] => []
  | [c] => [c]
  | [c1, c2] => [c1, c2]
  | [c1, c2, c3] => [c1, c2, c3]
  | c1 :: c2 :: c3 :: c4 :: rest =>
    if c1 = '.' ∧ c2 = 'g' ∧ c3 = 'i' ∧ c4 = 't' then removeGit rest
    else c1 :: removeGit (c2 :: c3 :: c4 :: rest)

/-- Whether the substring `.git` occurs anywhere in `s`. -/
def hasDotGit : List Char → Bool
  | c1 :: c2 :: c3 :: c4 :: rest =>
    if c1 = '.' ∧ c2 = 'g' ∧ c3 = 'i' ∧ c4 = 't' then true
    else hasDotGit (c2 :: c3 :: c4 :: rest)
  | _ => false

/-- `bard.py` line 15: `url = repo_url.rstrip("/").replace(".git", "")`. -/
def normalizeUrl (repoUrl : List Char) : List Char :=
  removeGit (rstripSlash repoUrl)

/-- The literal part of the regex `github\.com/([^/]+)/([^/]+)`. -/
def ghLit : List Char := "github.com/".data

/-- Matching of `([^/]+)/([^/]+)` at the current position: a maximal nonempty
run of non-slash characters, a literal slash, then a second maximal nonempty
run of non-slash characters (greedy matching; backtracking on the first group
cannot help since a shorter group would be followed by a non-slash). -/
def matchTail (t : List Char) : Option (List Char × List Char) :=
  let r1 := t.takeWhile (fun c => c ≠ '/')
  if r1 = [] then none
  else
    match t.dropWhile (fun c => c ≠ '/') with
    | [] => none
    | _ :: t2 =>
      let r2 := t2.takeWhile (fun c => c ≠ '/')
      if r2 = [] then none else some (r1, r2)

/-- `re.search(r"github\.com/([^/]+)/([^/]+)", url)`: scan left to right for
the leftmost position where the whole pattern matches; on a failed group
match the scan resumes one character further. -/
def reSearchGh : List Char → Option (List Char × List Char)
  | [] => none
  | c :: rest =>
    if (c :: rest).take 11 = ghLit then
      match matchTail ((c :: rest).drop 11) with
      | some g => some g
      | none => reSearchGh rest
    else reSearchGh rest

/-- `bard.py` lines 15-23: normalization followed by the regex search for
`owner` and `repo`. -/
def extractOwnerRepo (repoUrl : List Char) : Option (List Char × List Char) :=
  reSearchGh (normalizeUrl repoUrl)

/-- `bard.py` line 27. -/
def branches : List (List Char) := ["main".data, "master".data]

/-- `bard.py` line 28. -/
def filenames : List (List Char) :=
  ["README.md".data, "README.rst".data, "README.txt".data, "readme.md".data]

/-- The nested `for branch in branches: for filename in filenames:` loop
visits exactly the branch-major product of the two lists, in order. -/
def candidates : List (List Char × List Char) :=
  branches.flatMap (fun b => filenames.map (fun f => (b, f)))

/-- `bard.py` line 24: `f"https://raw.githubusercontent.com/{owner}/{repo}"`. -/
def baseRawUrl (owner repo : List Char) : List Char :=
  "https://raw.githubusercontent.com/".data ++ owner ++ "/".data ++ repo

/-- `bard.py` line 32: `f"{base_raw_url}/{branch}/{filename}"`. -/
def rawUrl (base : List Char) (c : List Char × List Char) : List Char :=
  base ++ "/".data ++ c.1 ++ "/".data ++ c.2

/-- Result of one `urllib.request.urlopen` attempt: a success (the body,
already decoded as UTF-8 text), an `urllib.error.HTTPError` (any HTTP error
status), or any other exception (connection failure, DNS failure, ...). -/
inductive FetchResp where
  | success (body : List Char)
  | httpError
  | transportError
deriving DecidableEq

/-- How the candidate loop of lines 30-37 ends. -/
inductive LoopResult where
  | found (body : List Char)
  | exhausted
  | raised
deriving DecidableEq

/-- `bard.py` lines 30-37: try each candidate in order; return the first
successful body; on `HTTPError` continue; any other exception propagates.
Also returns the list of URLs actually requested, in order. -/
def fetchLoop (resp : List Char → FetchResp) (base : List Char) :
    List (List Char × List Char) → LoopResult × List (List Char)
  | [] => (LoopResult.exhausted, [])
  | c :: rest =>
    match resp (rawUrl base c) with
    | FetchResp.success body => (LoopResult.found body, [rawUrl base c])
    | FetchResp.httpError =>
      let r := fetchLoop resp base rest
      (r.1, rawUrl base c :: r.2)
    | FetchResp.transportError => (LoopResult.raised, [rawUrl base c])

/-- How `get_readme_content` ends: content returned, `sys.exit(1)` after
printing a message, or an exception propagating uncaught. -/
inductive FetchOutcome where
  | ok (content : List Char)
  | exited (code : Nat) (msg : List Char)
  | uncaught
deriving DecidableEq

/-- Outcome of `get_readme_content` together with the requests it made. -/
structure FetchRun where
  outcome : FetchOutcome
  requests : List (List Char)
deriving DecidableEq

/-- `bard.py` lines 9-40, `get_readme_content`, with the network as an
explicit oracle from URL to response. -/
def get_readme_content (resp : List Char → FetchResp) (repoUrl : List Char) :
    FetchRun :=
  match extractOwnerRepo repoUrl with
  | none =>
    ⟨FetchOutcome.exited 1
      ("Error: Could not parse GitHub URL: ".data ++ normalizeUrl repoUrl), []⟩
  | some (owner, repo) =>
    match fetchLoop resp (baseRawUrl owner repo) candidates with
    | (LoopResult.found body, reqs) => ⟨FetchOutcome.ok body, reqs⟩
    | (LoopResult.exhausted, reqs) =>
      ⟨FetchOutcome.exited 1
        ("Error: Could not find README in ".data ++ repoUrl
          ++ " (checked main/master branches).".data), reqs⟩
    | (LoopResult.raised, reqs) => ⟨FetchOutcome.uncaught, reqs⟩

/-- `bard.py` line 92: the argparse default for the optional `style` argument. -/
def defaultStyle : List Char := "Epic Power Metal".data

/-- Text of the prompt f-string before `{repo_name}` (lines 46-48). -/
def promptPre1 : List Char :=
  "\nYou are The Bard, an AI songwriter.\nHere is the README for a software project named ".data
    ++ [apos]

/-- Text of the prompt f-string between `{repo_name}` and `{readme_text[:8000]}`. -/
def promptPre2 : List Char := [apos] ++ ":\n\n---\n".data

/-- Text of the prompt f-string between `{readme_text[:8000]}` and `{style}`
(note the trailing space on line 51 of the source). -/
def promptMid : List Char :=
  " \n---\n(Truncated if too long)\n\nTASK:\nWrite a song about this project.\nThe style must be: \"".data

/-- Text of the prompt f-string after `{style}` (lines 57-69). -/
def promptSuf : List Char :=
  "\".\nFormat the output EXACTLY for Suno AI generation:\n\n**Title:** <Title>\n**Style:** <Style Description>\n**Lyrics:**\n[Verse]\n...\n[Chorus]\n...\n\nBe creative, use specific technical terms from the README, and capture the ".data
    ++ [apos] ++ "vibe".data ++ [apos] ++ " of the project.\n".data

/-- `bard.py` lines 46-69: the generation instruction, embedding
`readme_text[:8000]`, the style label and the display name. -/
def promptFor (readmeText style repoName : List Char) : List Char :=
  promptPre1 ++ repoName ++ promptPre2 ++ readmeText.take 8000
    ++ promptMid ++ style ++ promptSuf

/-- Result of `subprocess.run(["gemini", prompt], ...)`: success with captured
stdout, `CalledProcessError` (carrying its `str(e)` text and captured stderr),
or `FileNotFoundError`. -/
inductive ToolResult where
  | ok (stdout : List Char)
  | calledProcessError (excText : List Char) (stderr : List Char)
  | fileNotFound
deriving DecidableEq

/-- How `generate_song` ends: the captured stdout, or `sys.exit(1)` after
printing a list of messages. -/
inductive SongOutcome where
  | ok (song : List Char)
  | exited (code : Nat) (msgs : List (List Char))
deriving DecidableEq

/-- The `FileNotFoundError` diagnostic of `bard.py` line 86. -/
def notFoundMsg : List Char :=
  "Error: ".data ++ [apos] ++ "gemini".data ++ [apos]
    ++ " CLI tool not found in PATH.".data

/-- `bard.py` lines 42-87, `generate_song`, with the external tool as an
explicit oracle from prompt to result. -/
def generate_song (tool : List Char → ToolResult)
    (readmeText style repoName : List Char) : SongOutcome :=
  match tool (promptFor readmeText style repoName) with
  | ToolResult.ok out => SongOutcome.ok out
  | ToolResult.calledProcessError excText stderr =>
    SongOutcome.exited 1
      ["Error calling gemini: ".data ++ excText, "Stderr: ".data ++ stderr]
  | ToolResult.fileNotFound => SongOutcome.exited 1 [notFoundMsg]

/-- Python `s.split("/")[-1]`: the suffix after the last slash (empty when
the string ends in a slash). -/
def pyLastSeg (s : List Char) : List Char :=
  ((s.reverse).takeWhile (fun c => c ≠ '/')).reverse

/-- `bard.py` line 96: `args.url.split("/")[-1].replace(".git", "")`. -/
def repoNameOf (url : List Char) : List Char :=
  removeGit (pyLastSeg url)

/-- An observable step of `main`: a line printed to stdout or an HTTP request. -/
inductive Event where
  | out (line : List Char)
  | request (url : List Char)
deriving DecidableEq

/-- How the process ends. -/
inductive Term where
  | normal
  | exited (code : Nat)
  | uncaught
deriving DecidableEq

/-- The observable behaviour of one run of `main`. -/
structure MainRun where
  events : List Event
  term : Term
deriving DecidableEq

/-- `"="*40` (lines 105 and 107). -/
def sep40 : List Char := List.replicate 40 '='

/-- `bard.py` lines 89-107, `main`: argument handling, progress messages,
fetch, generation, separator-wrapped output. -/
def main (resp : List Char → FetchResp) (tool : List Char → ToolResult)
    (url : List Char) (styleArg : Option (List Char)) : MainRun :=
  let style := styleArg.getD defaultStyle
  let repoName := repoNameOf url
  let intro : List Event :=
    [Event.out ("🎵 Tuning instruments for ".data ++ repoName ++ "...".data),
     Event.out "📜 Reading the sacred texts (README)...".data]
  match get_readme_content resp url with
  | ⟨FetchOutcome.ok content, reqs⟩ =>
    let pre := intro ++ reqs.map Event.request
      ++ [Event.out ("🎸 Composing in the style of: ".data ++ style ++ "...".data)]
    match generate_song tool content style repoName with
    | SongOutcome.ok song =>
      ⟨pre ++ [Event.out ("\n".data ++ sep40), Event.out song,
        Event.out (sep40 ++ "\n".data)], Term.normal⟩
    | SongOutcome.exited c msgs => ⟨pre ++ msgs.map Event.out, Term.exited c⟩
  | ⟨FetchOutcome.exited c msg, reqs⟩ =>
    ⟨intro ++ reqs.map Event.request ++ [Event.out msg], Term.exited c⟩
  | ⟨FetchOutcome.uncaught, reqs⟩ =>
    ⟨intro ++ reqs.map Event.request, Term.uncaught⟩

/-- Modelled from the spec wording of C3 and C8: stripping a literal `.git`
suffix (only a suffix), for comparison with the code's `replace(".git", "")`. -/
def stripGitSuffix (s : List Char) : List Char :=
  if s.reverse.take 4 = ['t', 'i', 'g', '.'] then (s.reverse.drop 4).reverse
  else s

/-! ### Helper lemmas about the string primitives -/

lemma takeWhile_all (p : Char → Bool) (xs : List Char)
    (h : ∀ c ∈ xs, p c = true) : xs.takeWhile p = xs := by
  induction xs with
  | nil => rfl
  | cons c t ih =>
    rw [List.takeWhile_cons_of_pos (h c (by simp))]
    rw [ih (fun c hc => h c (by simp [hc]))]

lemma takeWhile_append_stop (p : Char → Bool) (xs : List Char) (y : Char)
    (ys : List Char) (hxs : ∀ c ∈ xs, p c = true) (hy : p y = false) :
    (xs ++ y :: ys).takeWhile p = xs := by
  induction xs with
  | nil =>
    rw [List.nil_append]
    exact List.takeWhile_cons_of_neg (by simp [hy])
  | cons c t ih =>
    rw [List.cons_append, List.takeWhile_cons_of_pos (hxs c (by simp))]
    rw [ih (fun c hc => hxs c (by simp [hc]))]

lemma dropWhile_append_stop (p : Char → Bool) (xs : List Char) (y : Char)
    (ys : List Char) (hxs : ∀ c ∈ xs, p c = true) (hy : p y = false) :
    (xs ++ y :: ys).dropWhile p = y :: ys := by
  induction xs with
  | nil =>
    rw [List.nil_append]
    exact List.dropWhile_cons_of_neg (by simp [hy])
  | cons c t ih =>
    rw [List.cons_append, List.dropWhile_cons_of_pos (hxs c (by simp))]
    exact ih (fun c hc => hxs c (by simp [hc]))

lemma rstripSlash_append_slash (xs : List Char) :
    rstripSlash (xs ++ ['/']) = rstripSlash xs := by
  unfold rstripSlash
  rw [List.reverse_append]
  simp [List.dropWhile_cons]

lemma rstripSlash_append_last (xs : List Char) (c : Char) (hc : c ≠ '/') :
    rstripSlash (xs ++ [c]) = xs ++ [c] := by
  unfold rstripSlash
  rw [List.reverse_append]
  simp only [List.reverse_cons, List.reverse_nil, List.nil_append,
    List.singleton_append]
  rw [List.dropWhile_cons_of_neg (by simp [hc])]
  simp

lemma rstripSlash_append_clean (xs ys : List Char) (hne : ys ≠ [])
    (hy : ∀ c ∈ ys, c ≠ '/') : rstripSlash (xs ++ ys) = xs ++ ys := by
  have hsplit : ys.dropLast ++ [ys.getLast hne] = ys :=
    List.dropLast_append_getLast hne
  have hlast : ys.getLast hne ≠ '/' := hy _ (List.getLast_mem hne)
  calc rstripSlash (xs ++ ys)
      = rstripSlash ((xs ++ ys.dropLast) ++ [ys.getLast hne]) := by
        rw [List.append_assoc, hsplit]
    _ = (xs ++ ys.dropLast) ++ [ys.getLast hne] :=
        rstripSlash_append_last _ _ hlast
    _ = xs ++ ys := by rw [List.append_assoc, hsplit]

lemma hasDotGit_cons4 (c1 c2 c3 c4 : Char) (rest : List Char) :
    hasDotGit (c1 :: c2 :: c3 :: c4 :: rest) =
      if c1 = '.' ∧ c2 = 'g' ∧ c3 = 'i' ∧ c4 = 't' then true
      else hasDotGit (c2 :: c3 :: c4 :: rest) := by
  rw [hasDotGit]

lemma removeGit_cons4_neg (c1 c2 c3 c4 : Char) (rest : List Char)
    (h : ¬(c1 = '.' ∧ c2 = 'g' ∧ c3 = 'i' ∧ c4 = 't')) :
    removeGit (c1 :: c2 :: c3 :: c4 :: rest)
      = c1 :: removeGit (c2 :: c3 :: c4 :: rest) := by
  rw [removeGit, if_neg h]

lemma removeGit_id_fuel (n : Nat) : ∀ s : List Char, s.length ≤ n →
    hasDotGit s = false → removeGit s = s := by
  induction n with
  | zero =>
    intro s hl _
    rw [List.length_eq_zero.mp (Nat.le_zero.mp hl)]
    rfl
  | succ n ih =>
    intro s hl h
    rcases s with _ | ⟨c1, _ | ⟨c2, _ | ⟨c3, _ | ⟨c4, rest⟩⟩⟩⟩
    · rfl
    · rfl
    · rfl
    · rfl
    · rw [hasDotGit_cons4] at h
      by_cases hc : c1 = '.' ∧ c2 = 'g' ∧ c3 = 'i' ∧ c4 = 't'
      · rw [if_pos hc] at h; exact absurd h (by simp)
      · rw [if_neg hc] at h
        rw [removeGit_cons4_neg c1 c2 c3 c4 rest hc]
        rw [ih (c2 :: c3 :: c4 :: rest) (by simp at hl ⊢; omega) h]

/-- If `.git` does not occur in `s`, `replace(".git", "")` leaves `s` alone. -/
lemma removeGit_eq_self (s : List Char) (h : hasDotGit s = false) :
    removeGit s = s :=
  removeGit_id_fuel s.length s le_rfl h

lemma removeGit_strip_fuel (n : Nat) : ∀ xs : List Char, xs.length ≤ n →
    hasDotGit xs = false → removeGit (xs ++ ".git".data) = xs := by
  induction n with
  | zero =>
    intro xs hl _
    rw [List.length_eq_zero.mp (Nat.le_zero.mp hl)]
    rfl
  | succ n ih =>
    intro xs hl h
    rcases xs with _ | ⟨c1, _ | ⟨c2, _ | ⟨c3, _ | ⟨c4, rest⟩⟩⟩⟩
    · rfl
    · show removeGit (c1 :: '.' :: 'g' :: 'i' :: ['t']) = [c1]
      rw [removeGit_cons4_neg _ _ _ _ _ (fun hh => absurd hh.2.1 (by decide))]
      rfl
    · show removeGit (c1 :: c2 :: '.' :: 'g' :: 'i' :: ['t']) = [c1, c2]
      rw [removeGit_cons4_neg _ _ _ _ _ (fun hh => absurd hh.2.2.1 (by decide))]
      rw [removeGit_cons4_neg _ _ _ _ _ (fun hh => absurd hh.2.1 (by decide))]
      rfl
    · show removeGit (c1 :: c2 :: c3 :: '.' :: 'g' :: 'i' :: ['t'])
        = [c1, c2, c3]
      rw [removeGit_cons4_neg _ _ _ _ _ (fun hh => absurd hh.2.2.2 (by decide))]
      rw [removeGit_cons4_neg _ _ _ _ _ (fun hh => absurd hh.2.2.1 (by decide))]
      rw [removeGit_cons4_neg _ _ _ _ _ (fun hh => absurd hh.2.1 (by decide))]
      rfl
    · rw [hasDotGit_cons4] at h
      by_cases hc : c1 = '.' ∧ c2 = 'g' ∧ c3 = 'i' ∧ c4 = 't'
      · rw [if_pos hc] at h; exact absurd h (by simp)
      · rw [if_neg hc] at h
        show removeGit (c1 :: c2 :: c3 :: c4 :: (rest ++ ".git".data))
          = c1 :: c2 :: c3 :: c4 :: rest
        rw [removeGit_cons4_neg _ _ _ _ _ hc]
        rw [show c2 :: c3 :: c4 :: (rest ++ ".git".data)
          = (c2 :: c3 :: c4 :: rest) ++ ".git".data from rfl]
        rw [ih (c2 :: c3 :: c4 :: rest) (by simp at hl ⊢; omega) h]

/-- If `.git` does not occur in `xs`, `replace(".git", "")` removes exactly a
trailing `.git`. -/
lemma removeGit_strip (xs : List Char) (h : hasDotGit xs = false) :
    removeGit (xs ++ ".git".data) = xs :=
  removeGit_strip_fuel xs.length xs le_rfl h

/-! ### Helper lemmas about the regex search -/

lemma matchTail_eq (owner repo : List Char) (ho : owner ≠ [])
    (ho2 : ∀ c ∈ owner, c ≠ '/') (hr : repo ≠ [])
    (hr2 : ∀ c ∈ repo, c ≠ '/') :
    matchTail (owner ++ '/' :: repo) = some (owner, repo) := by
  unfold matchTail
  rw [takeWhile_append_stop _ _ _ _ (fun c hc => by simp [ho2 c hc]) (by simp)]
  rw [dropWhile_append_stop _ _ _ _ (fun c hc => by simp [ho2 c hc]) (by simp)]
  rw [if_neg ho]
  show (if repo.takeWhile (fun c => decide (c ≠ '/')) = [] then none
    else some (owner, repo.takeWhile (fun c => decide (c ≠ '/'))))
      = some (owner, repo)
  rw [takeWhile_all _ _ (fun c hc => by simp [hr2 c hc])]
  rw [if_neg hr]

lemma take11_ne_ghLit (c : Char) (s : List Char) (h : c ≠ 'g') :
    (c :: s).take 11 ≠ ghLit := by
  intro he
  have h3 : (some c : Option Char) = some 'g' := congrArg List.head? he
  exact h (Option.some.inj h3)

lemma reSearchGh_skip (c : Char) (s : List Char) (h : c ≠ 'g') :
    reSearchGh (c :: s) = reSearchGh s := by
  rw [reSearchGh, if_neg (take11_ne_ghLit c s h)]

lemma reSearchGh_hit (rest : List Char) (g : List Char × List Char)
    (h : matchTail rest = some g) :
    reSearchGh ("github.com/".data ++ rest) = some g := by
  show reSearchGh ('g' :: ("ithub.com/".data ++ rest)) = some g
  rw [reSearchGh,
    if_pos (show ('g' :: ("ithub.com/".data ++ rest)).take 11 = ghLit from rfl)]
  show (match matchTail rest with
    | some g => some g
    | none => reSearchGh ("ithub.com/".data ++ rest)) = some g
  rw [h]

lemma reSearchGh_skip_all (pre : List Char) : ∀ X : List Char,
    (∀ i, i < pre.length → ((pre ++ X).drop i).take 11 ≠ ghLit) →
    reSearchGh (pre ++ X) = reSearchGh X := by
  induction pre with
  | nil => intro X _; rfl
  | cons c pre ih =>
    intro X H
    have h0 : (c :: (pre ++ X)).take 11 ≠ ghLit := by
      simpa using H 0 (by simp)
    show reSearchGh (c :: (pre ++ X)) = reSearchGh X
    rw [reSearchGh, if_neg h0]
    exact ih X (fun i hi => by
      have := H (i + 1) (by simp; omega)
      simpa using this)

/-- A canonical GitHub repository URL built from owner and repo. -/
def ghUrl (owner repo : List Char) : List Char :=
  "https://github.com/".data ++ owner ++ '/' :: repo

lemma reSearchGh_ghUrl (owner repo : List Char) (ho : owner ≠ [])
    (ho2 : ∀ c ∈ owner, c ≠ '/') (hr : repo ≠ [])
    (hr2 : ∀ c ∈ repo, c ≠ '/') :
    reSearchGh (ghUrl owner repo) = some (owner, repo) := by
  show reSearchGh ('h' :: 't' :: 't' :: 'p' :: 's' :: ':' :: '/' :: '/'
    :: ("github.com/".data ++ (owner ++ '/' :: repo))) = some (owner, repo)
  rw [reSearchGh_skip _ _ (by decide), reSearchGh_skip _ _ (by decide),
    reSearchGh_skip _ _ (by decide), reSearchGh_skip _ _ (by decide),
    reSearchGh_skip _ _ (by decide), reSearchGh_skip _ _ (by decide),
    reSearchGh_skip _ _ (by decide), reSearchGh_skip _ _ (by decide)]
  exact reSearchGh_hit _ _ (matchTail_eq owner repo ho ho2 hr hr2)

lemma normalizeUrl_ghUrl (owner repo tail : List Char) (hr : repo ≠ [])
    (hr2 : ∀ c ∈ repo, c ≠ '/')
    (hclean : hasDotGit (ghUrl owner repo) = false)
    (htail : tail ∈ [([] : List Char), ['/'], ".git".data, ".git/".data]) :
    normalizeUrl (ghUrl owner repo ++ tail) = ghUrl owner repo := by
  have hstrip : rstripSlash (ghUrl owner repo) = ghUrl owner repo := by
    have : ghUrl owner repo
        = ("https://github.com/".data ++ owner ++ ['/']) ++ repo := by
      simp [ghUrl]
    rw [this, rstripSlash_append_clean _ _ hr hr2, ← this]
  have hgit : rstripSlash (ghUrl owner repo ++ ".git".data)
      = ghUrl owner repo ++ ".git".data :=
    rstripSlash_append_clean _ _ (by simp) (by decide)
  simp only [List.mem_cons, List.mem_singleton, List.not_mem_nil, or_false]
    at htail
  rcases htail with h | h | h | h <;> subst h
  · rw [List.append_nil]
    unfold normalizeUrl
    rw [hstrip, removeGit_eq_self _ hclean]
  · unfold normalizeUrl
    rw [rstripSlash_append_slash, hstrip, removeGit_eq_self _ hclean]
  · unfold normalizeUrl
    rw [hgit, removeGit_strip _ hclean]
  · unfold normalizeUrl
    rw [show ghUrl owner repo ++ ".git/".data
      = (ghUrl owner repo ++ ".git".data) ++ ['/'] from by simp,
      rstripSlash_append_slash, hgit, removeGit_strip _ hclean]

/-! ### Helper lemmas about the fetch loop -/

lemma fetchLoop_first_success (resp : List Char → FetchResp)
    (base : List Char) :
    ∀ (cs : List (List Char × List Char)) (k : Nat) (hk : k < cs.length)
      (body : List Char),
      resp (rawUrl base (cs.get ⟨k, hk⟩)) = FetchResp.success body →
      (∀ (j : Nat) (hj : j < k),
        resp (rawUrl base (cs.get ⟨j, hj.trans hk⟩)) = FetchResp.httpError) →
      fetchLoop resp base cs
        = (LoopResult.found body, (cs.take (k + 1)).map (rawUrl base)) := by
  intro cs
  induction cs with
  | nil => intro k hk; simp at hk
  | cons c cs ih =>
    intro k hk body hs hf
    cases k with
    | zero =>
      rw [fetchLoop]
      rw [show (c :: cs).get ⟨0, hk⟩ = c from rfl] at hs
      rw [hs]
      rfl
    | succ k =>
      rw [fetchLoop]
      have h0 : resp (rawUrl base c) = FetchResp.httpError := by
        have := hf 0 (Nat.succ_pos k)
        rwa [show (c :: cs).get ⟨0, _⟩ = c from rfl] at this
      rw [h0]
      have ih2 := ih k (Nat.lt_of_succ_lt_succ hk) body
        (by rwa [show (c :: cs).get ⟨k + 1, hk⟩
          = cs.get ⟨k, Nat.lt_of_succ_lt_succ hk⟩ from rfl] at hs)
        (fun j hj => by
          have := hf (j + 1) (Nat.succ_lt_succ hj)
          rwa [show (c :: cs).get ⟨j + 1, _⟩
            = cs.get ⟨j, hj.trans (Nat.lt_of_succ_lt_succ hk)⟩ from rfl]
            at this)
      rw [ih2]
      rfl

lemma fetchLoop_transport (resp : List Char → FetchResp) (base : List Char) :
    ∀ (cs : List (List Char × List Char)) (k : Nat) (hk : k < cs.length),
      resp (rawUrl base (cs.get ⟨k, hk⟩)) = FetchResp.transportError →
      (∀ (j : Nat) (hj : j < k),
        resp (rawUrl base (cs.get ⟨j, hj.trans hk⟩)) = FetchResp.httpError) →
      fetchLoop resp base cs
        = (LoopResult.raised, (cs.take (k + 1)).map (rawUrl base)) := by
  intro cs
  induction cs with
  | nil => intro k hk; simp at hk
  | cons c cs ih =>
    intro k hk hs hf
    cases k with
    | zero =>
      rw [fetchLoop]
      rw [show (c :: cs).get ⟨0, hk⟩ = c from rfl] at hs
      rw [hs]
      rfl
    | succ k =>
      rw [fetchLoop]
      have h0 : resp (rawUrl base c) = FetchResp.httpError := by
        have := hf 0 (Nat.succ_pos k)
        rwa [show (c :: cs).get ⟨0, _⟩ = c from rfl] at this
      rw [h0]
      have ih2 := ih k (Nat.lt_of_succ_lt_succ hk)
        (by rwa [show (c :: cs).get ⟨k + 1, hk⟩
          = cs.get ⟨k, Nat.lt_of_succ_lt_succ hk⟩ from rfl] at hs)
        (fun j hj => by
          have := hf (j + 1) (Nat.succ_lt_succ hj)
          rwa [show (c :: cs).get ⟨j + 1, _⟩
            = cs.get ⟨j, hj.trans (Nat.lt_of_succ_lt_succ hk)⟩ from rfl]
            at this)
      rw [ih2]
      rfl

lemma fetchLoop_all_fail (resp : List Char → FetchResp) (base : List Char)
    (cs : List (List Char × List Char))
    (h : ∀ c ∈ cs, resp (rawUrl base c) = FetchResp.httpError) :
    fetchLoop resp base cs = (LoopResult.exhausted, cs.map (rawUrl base)) := by
  induction cs with
  | nil => rfl
  | cons c cs ih =>
    rw [fetchLoop, h c (by simp), ih (fun x hx => h x (by simp [hx]))]
    rfl

/-! ### Helper lemmas about the entry point -/

lemma pyLastSeg_append (xs ys : List Char) (hy : ∀ c ∈ ys, c ≠ '/') :
    pyLastSeg (xs ++ '/' :: ys) = ys := by
  unfold pyLastSeg
  rw [List.reverse_append, List.reverse_cons, List.append_assoc,
    List.singleton_append]
  rw [takeWhile_append_stop _ _ _ _
    (fun c hc => by simp [hy c (List.mem_reverse.mp hc)]) (by simp)]
  exact List.reverse_reverse ys

lemma get_readme_content_parsed (resp : List Char → FetchResp)
    (repoUrl owner repo : List Char)
    (hparse : extractOwnerRepo repoUrl = some (owner, repo)) :
    get_readme_content resp repoUrl =
      match fetchLoop resp (baseRawUrl owner repo) candidates with
      | (LoopResult.found body, reqs) => ⟨FetchOutcome.ok body, reqs⟩
      | (LoopResult.exhausted, reqs) =>
        ⟨FetchOutcome.exited 1 ("Error: Could not find README in ".data
          ++ repoUrl ++ " (checked main/master branches).".data), reqs⟩
      | (LoopResult.raised, reqs) => ⟨FetchOutcome.uncaught, reqs⟩ := by
  unfold get_readme_content
  rw [hparse]

lemma main_term_of_fetch_exit (resp : List Char → FetchResp)
    (tool : List Char → ToolResult) (url : List Char)
    (styleArg : Option (List Char)) (c : Nat) (msg : List Char)
    (reqs : List (List Char))
    (h : get_readme_content resp url = ⟨FetchOutcome.exited c msg, reqs⟩) :
    (main resp tool url styleArg).term = Term.exited c := by
  unfold main
  rw [h]

lemma main_term_of_fetch_uncaught (resp : List Char → FetchResp)
    (tool : List Char → ToolResult) (url : List Char)
    (styleArg : Option (List Char)) (reqs : List (List Char))
    (h : get_readme_content resp url = ⟨FetchOutcome.uncaught, reqs⟩) :
    (main resp tool url styleArg).term = Term.uncaught := by
  unfold main
  rw [h]

/-! ### The claims -/

/-- C1: the fetcher iterates over the fixed branch-major candidate list
`[main, master] × [README.md, README.rst, README.txt, readme.md]`; if the
candidate at position `k` is the first to respond successfully, the returned
content is that candidate's (decoded) body and exactly the first `k + 1`
candidate URLs are requested — no request is made for any later candidate. -/
theorem c1_first_match_wins (resp : List Char → FetchResp)
    (repoUrl owner repo body : List Char) (k : Nat)
    (hk : k < candidates.length)
    (hparse : extractOwnerRepo repoUrl = some (owner, repo))
    (hsucc : resp (rawUrl (baseRawUrl owner repo) (candidates.get ⟨k, hk⟩))
      = FetchResp.success body)
    (hfail : ∀ (j : Nat) (hj : j < k),
      resp (rawUrl (baseRawUrl owner repo) (candidates.get ⟨j, hj.trans hk⟩))
        = FetchResp.httpError) :
    candidates
      = [("main".data, "README.md".data), ("main".data, "README.rst".data),
         ("main".data, "README.txt".data), ("main".data, "readme.md".data),
         ("master".data, "README.md".data), ("master".data, "README.rst".data),
         ("master".data, "README.txt".data), ("master".data, "readme.md".data)]
    ∧ get_readme_content resp repoUrl
        = ⟨FetchOutcome.ok body,
           (candidates.take (k + 1)).map (rawUrl (baseRawUrl owner repo))⟩ := by
  refine ⟨by decide, ?_⟩
  rw [get_readme_content_parsed resp repoUrl owner repo hparse]
  rw [fetchLoop_first_success resp (baseRawUrl owner repo) candidates k hk
    body hsucc hfail]

/-- Stub network for the C1 witness: only the third candidate
(`main/README.txt`) succeeds. -/
def c1resp : List Char → FetchResp := fun u =>
  if u = "https://raw.githubusercontent.com/o/r/main/README.txt".data
  then FetchResp.success "hello".data else FetchResp.httpError

theorem c1_first_match_wins_witness :
    (2 < candidates.length
      ∧ extractOwnerRepo "https://github.com/o/r".data
          = some ("o".data, "r".data))
    ∧ (candidates
        = [("main".data, "README.md".data), ("main".data, "README.rst".data),
           ("main".data, "README.txt".data), ("main".data, "readme.md".data),
           ("master".data, "README.md".data), ("master".data, "README.rst".data),
           ("master".data, "README.txt".data), ("master".data, "readme.md".data)]
      ∧ get_readme_content c1resp "https://github.com/o/r".data
          = ⟨FetchOutcome.ok "hello".data,
             (candidates.take 3).map
               (rawUrl (baseRawUrl "o".data "r".data))⟩) :=
  ⟨⟨by decide, by decide⟩,
   c1_first_match_wins c1resp "https://github.com/o/r".data "o".data "r".data
     "hello".data 2 (by decide) (by decide) (by decide) (by decide)⟩

/-- C4: when the URL does not match the owner/repo pattern, the fetcher
prints a parse error naming the (normalized) URL and exits with code 1,
and the run performs no HTTP request at all. -/
theorem c4_parse_error (resp : List Char → FetchResp)
    (tool : List Char → ToolResult) (url : List Char)
    (styleArg : Option (List Char))
    (h : extractOwnerRepo url = none) :
    get_readme_content resp url
      = ⟨FetchOutcome.exited 1
          ("Error: Could not parse GitHub URL: ".data ++ normalizeUrl url), []⟩
    ∧ (main resp tool url styleArg).term = Term.exited 1
    ∧ ∀ u, Event.request u ∉ (main resp tool url styleArg).events := by
  have hg : get_readme_content resp url
      = ⟨FetchOutcome.exited 1
          ("Error: Could not parse GitHub URL: ".data ++ normalizeUrl url), []⟩ := by
    unfold get_readme_content
    rw [h]
  refine ⟨hg, main_term_of_fetch_exit resp tool url styleArg 1 _ [] hg, ?_⟩
  intro u
  unfold main
  rw [hg]
  intro hmem
  simp only [List.map_nil, List.append_nil, List.mem_append, List.mem_cons,
    List.not_mem_nil, or_false] at hmem
  rcases hmem with (h1 | h1) | h1 <;> exact Event.noConfusion h1

/-- Stub URL with no `github.com/<owner>/<repo>` shape, for the C4 witness. -/
def c4url : List Char := "https://example.com/x".data

theorem c4_parse_error_witness :
    extractOwnerRepo c4url = none
    ∧ (get_readme_content (fun _ => FetchResp.httpError) c4url
        = ⟨FetchOutcome.exited 1
            ("Error: Could not parse GitHub URL: ".data ++ normalizeUrl c4url),
           []⟩
      ∧ (main (fun _ => FetchResp.httpError) (fun _ => ToolResult.fileNotFound)
          c4url none).term = Term.exited 1
      ∧ ∀ u, Event.request u
          ∉ (main (fun _ => FetchResp.httpError)
              (fun _ => ToolResult.fileNotFound) c4url none).events) :=
  ⟨by decide,
   c4_parse_error (fun _ => FetchResp.httpError)
     (fun _ => ToolResult.fileNotFound) c4url none (by decide)⟩

/-- C5: when all 8 candidates (2 branches × 4 filenames) fail, the fetcher
prints an error naming the original input URL and the two branches checked,
all 8 candidate URLs having been requested, and the process exits with a
non-zero code. -/
theorem c5_all_candidates_fail (resp : List Char → FetchResp)
    (tool : List Char → ToolResult) (repoUrl owner repo : List Char)
    (styleArg : Option (List Char))
    (hparse : extractOwnerRepo repoUrl = some (owner, repo))
    (hfail : ∀ c ∈ candidates,
      resp (rawUrl (baseRawUrl owner repo) c) = FetchResp.httpError) :
    get_readme_content resp repoUrl
      = ⟨FetchOutcome.exited 1
          ("Error: Could not find README in ".data ++ repoUrl
            ++ " (checked main/master branches).".data),
         candidates.map (rawUrl (baseRawUrl owner repo))⟩
    ∧ (candidates.map (rawUrl (baseRawUrl owner repo))).length = 8
    ∧ (main resp tool repoUrl styleArg).term = Term.exited 1 := by
  have hg : get_readme_content resp repoUrl
      = ⟨FetchOutcome.exited 1
          ("Error: Could not find README in ".data ++ repoUrl
            ++ " (checked main/master branches).".data),
         candidates.map (rawUrl (baseRawUrl owner repo))⟩ := by
    rw [get_readme_content_parsed resp repoUrl owner repo hparse]
    rw [fetchLoop_all_fail resp (baseRawUrl owner repo) candidates hfail]
  refine ⟨hg, ?_, main_term_of_fetch_exit resp tool repoUrl styleArg 1 _ _ hg⟩
  rw [List.length_map]
  decide

theorem c5_all_candidates_fail_witness :
    extractOwnerRepo "https://github.com/o/r".data = some ("o".data, "r".data)
    ∧ (get_readme_content (fun _ => FetchResp.httpError)
          "https://github.com/o/r".data
        = ⟨FetchOutcome.exited 1
            ("Error: Could not find README in ".data
              ++ "https://github.com/o/r".data
              ++ " (checked main/master branches).".data),
           candidates.map (rawUrl (baseRawUrl "o".data "r".data))⟩
      ∧ (candidates.map (rawUrl (baseRawUrl "o".data "r".data))).length = 8
      ∧ (main (fun _ => FetchResp.httpError) (fun _ => ToolResult.fileNotFound)
          "https://github.com/o/r".data none).term = Term.exited 1) :=
  ⟨by decide,
   c5_all_candidates_fail (fun _ => FetchResp.httpError)
     (fun _ => ToolResult.fileNotFound) "https://github.com/o/r".data
     "o".data "r".data none (by decide) (by decide)⟩

/-- C10: the loop catches only HTTP error responses; if the candidate at
position `k` raises a non-HTTP transport error (the earlier ones having
failed with HTTP errors), the exception propagates out of the fetcher:
the run ends as an unhandled exception, not as a printed-diagnostic exit,
and no candidate after position `k` is requested. -/
theorem c10_transport_error_uncaught (resp : List Char → FetchResp)
    (tool : List Char → ToolResult) (repoUrl owner repo : List Char)
    (styleArg : Option (List Char)) (k : Nat)
    (hk : k < candidates.length)
    (hparse : extractOwnerRepo repoUrl = some (owner, repo))
    (htrans : resp (rawUrl (baseRawUrl owner repo) (candidates.get ⟨k, hk⟩))
      = FetchResp.transportError)
    (hfail : ∀ (j : Nat) (hj : j < k),
      resp (rawUrl (baseRawUrl owner repo) (candidates.get ⟨j, hj.trans hk⟩))
        = FetchResp.httpError) :
    get_readme_content resp repoUrl
      = ⟨FetchOutcome.uncaught,
         (candidates.take (k + 1)).map (rawUrl (baseRawUrl owner repo))⟩
    ∧ (main resp tool repoUrl styleArg).term = Term.uncaught
    ∧ ∀ c msg, (FetchOutcome.uncaught : FetchOutcome)
        ≠ FetchOutcome.exited c msg := by
  have hg : get_readme_content resp repoUrl
      = ⟨FetchOutcome.uncaught,
         (candidates.take (k + 1)).map (rawUrl (baseRawUrl owner repo))⟩ := by
    rw [get_readme_content_parsed resp repoUrl owner repo hparse]
    rw [fetchLoop_transport resp (baseRawUrl owner repo) candidates k hk
      htrans hfail]
  exact ⟨hg, main_term_of_fetch_uncaught resp tool repoUrl styleArg _ hg,
    fun c msg h => FetchOutcome.noConfusion h⟩

/-- Stub network for the C10 witness: the very first candidate raises a
transport-level error. -/
def c10resp : List Char → FetchResp := fun u =>
  if u = "https://raw.githubusercontent.com/o/r/main/README.md".data
  then FetchResp.transportError else FetchResp.httpError

theorem c10_transport_error_uncaught_witness :
    (0 < candidates.length
      ∧ extractOwnerRepo "https://github.com/o/r".data
          = some ("o".data, "r".data))
    ∧ (get_readme_content c10resp "https://github.com/o/r".data
        = ⟨FetchOutcome.uncaught,
           (candidates.take 1).map (rawUrl (baseRawUrl "o".data "r".data))⟩
      ∧ (main c10resp (fun _ => ToolResult.fileNotFound)
          "https://github.com/o/r".data none).term = Term.uncaught
      ∧ ∀ c msg, (FetchOutcome.uncaught : FetchOutcome)
          ≠ FetchOutcome.exited c msg) :=
  ⟨⟨by decide, by decide⟩,
   c10_transport_error_uncaught c10resp (fun _ => ToolResult.fileNotFound)
     "https://github.com/o/r".data "o".data "r".data none 0 (by decide)
     (by decide) (by decide) (by decide)⟩

/-- C2: the document text is truncated to exactly its first 8000 characters
when longer than 8000, and embedded unmodified when its length is at most
8000; the embedded text sits verbatim in the fixed prompt template between
the display name and the style label. -/
theorem c2_truncation (readmeText style repoName : List Char) :
    (readmeText.length ≤ 8000 →
      promptFor readmeText style repoName
        = promptPre1 ++ repoName ++ promptPre2 ++ readmeText
            ++ promptMid ++ style ++ promptSuf)
    ∧ (8000 < readmeText.length →
        (readmeText.take 8000).length = 8000
        ∧ readmeText = readmeText.take 8000 ++ readmeText.drop 8000
        ∧ readmeText.drop 8000 ≠ []
        ∧ promptFor readmeText style repoName
            = promptPre1 ++ repoName ++ promptPre2 ++ readmeText.take 8000
                ++ promptMid ++ style ++ promptSuf) := by
  constructor
  · intro h
    unfold promptFor
    rw [List.take_of_length_le h]
  · intro h
    refine ⟨?_, (List.take_append_drop 8000 readmeText).symm, ?_, rfl⟩
    · rw [List.length_take]
      omega
    · intro hnil
      have hlen := congrArg List.length hnil
      rw [List.length_drop, List.length_nil] at hlen
      omega

theorem c2_truncation_witness :
    8000 < (List.replicate 8001 'x').length
    ∧ (((List.replicate 8001 'x').take 8000).length = 8000
      ∧ List.replicate 8001 'x'
          = (List.replicate 8001 'x').take 8000
            ++ (List.replicate 8001 'x').drop 8000
      ∧ (List.replicate 8001 'x').drop 8000 ≠ []
      ∧ promptFor (List.replicate 8001 'x') [] []
          = promptPre1 ++ [] ++ promptPre2 ++ (List.replicate 8001 'x').take 8000
              ++ promptMid ++ [] ++ promptSuf) :=
  ⟨by rw [List.length_replicate]; omega,
   (c2_truncation (List.replicate 8001 'x') [] []).2
     (by rw [List.length_replicate]; omega)⟩

lemma out_head_ne (c1 c2 : Char) (t1 t2 : List Char) (hne : c1 ≠ c2) :
    Event.out (c1 :: t1) = Event.out (c2 :: t2) → False := by
  intro h
  have h2 : c1 :: t1 = c2 :: t2 := by injection h
  have h3 : c1 = c2 := by injection h2
  exact hne h3

/-- C6: when the external tool exits non-zero, the program prints the error
line and a line carrying the tool's captured standard error, terminates with
exit code 1, and prints neither of the two separator lines that wrap song
content on success. -/
theorem c6_tool_nonzero_exit (resp : List Char → FetchResp)
    (tool : List Char → ToolResult) (url : List Char)
    (styleArg : Option (List Char)) (content : List Char)
    (reqs : List (List Char)) (excText stderr : List Char)
    (hfetch : get_readme_content resp url = ⟨FetchOutcome.ok content, reqs⟩)
    (htool : tool (promptFor content (styleArg.getD defaultStyle)
        (repoNameOf url))
      = ToolResult.calledProcessError excText stderr) :
    (main resp tool url styleArg).term = Term.exited 1
    ∧ Event.out ("Error calling gemini: ".data ++ excText)
        ∈ (main resp tool url styleArg).events
    ∧ Event.out ("Stderr: ".data ++ stderr)
        ∈ (main resp tool url styleArg).events
    ∧ Event.out ("\n".data ++ sep40) ∉ (main resp tool url styleArg).events
    ∧ Event.out (sep40 ++ "\n".data)
        ∉ (main resp tool url styleArg).events := by
  have hgen : generate_song tool content (styleArg.getD defaultStyle)
      (repoNameOf url)
      = SongOutcome.exited 1
          ["Error calling gemini: ".data ++ excText,
           "Stderr: ".data ++ stderr] := by
    unfold generate_song
    rw [htool]
  have hmain : main resp tool url styleArg
      = ⟨[Event.out ("🎵 Tuning instruments for ".data ++ repoNameOf url
            ++ "...".data),
          Event.out "📜 Reading the sacred texts (README)...".data]
          ++ reqs.map Event.request
          ++ [Event.out ("🎸 Composing in the style of: ".data
                ++ styleArg.getD defaultStyle ++ "...".data)]
          ++ [Event.out ("Error calling gemini: ".data ++ excText),
              Event.out ("Stderr: ".data ++ stderr)],
         Term.exited 1⟩ := by
    unfold main
    rw [hfetch]
    show (match generate_song tool content (styleArg.getD defaultStyle)
        (repoNameOf url) with
      | SongOutcome.ok song => _
      | SongOutcome.exited c msgs => _) = _
    rw [hgen]
    rfl
  have hev : (main resp tool url styleArg).events
      = Event.out ("🎵 Tuning instruments for ".data ++ repoNameOf url
          ++ "...".data)
        :: Event.out "📜 Reading the sacred texts (README)...".data
        :: (reqs.map Event.request
            ++ [Event.out ("🎸 Composing in the style of: ".data
                  ++ styleArg.getD defaultStyle ++ "...".data),
                Event.out ("Error calling gemini: ".data ++ excText),
                Event.out ("Stderr: ".data ++ stderr)]) := by
    rw [hmain]
    simp
  refine ⟨by rw [hmain], ?_, ?_, ?_, ?_⟩
  · rw [hev]
    simp
  · rw [hev]
    simp
  · rw [hev]
    intro hmem
    simp only [List.mem_cons, List.mem_append, List.mem_map,
      List.not_mem_nil, or_false] at hmem
    rcases hmem with h | h | ⟨u, hu, h⟩ | h | h | h
    · exact out_head_ne _ _ _ _ (by decide) h
    · exact out_head_ne _ _ _ _ (by decide) h
    · exact Event.noConfusion h
    · exact out_head_ne _ _ _ _ (by decide) h
    · exact out_head_ne _ _ _ _ (by decide) h
    · exact out_head_ne _ _ _ _ (by decide) h
  · rw [hev]
    intro hmem
    simp only [List.mem_cons, List.mem_append, List.mem_map,
      List.not_mem_nil, or_false] at hmem
    rcases hmem with h | h | ⟨u, hu, h⟩ | h | h | h
    · exact out_head_ne _ _ _ _ (by decide) h
    · exact out_head_ne _ _ _ _ (by decide) h
    · exact Event.noConfusion h
    · exact out_head_ne _ _ _ _ (by decide) h
    · exact out_head_ne _ _ _ _ (by decide) h
    · exact out_head_ne _ _ _ _ (by decide) h

/-- Stub network for the C6/C7 witnesses: every candidate succeeds with a
tiny README, so the first candidate is fetched. -/
def okResp : List Char → FetchResp := fun _ => FetchResp.success "hi".data

/-- Stub external tool for the C6 witness: always a non-zero exit. -/
def c6tool : List Char → ToolResult :=
  fun _ => ToolResult.calledProcessError "boom".data "badness".data

theorem c6_tool_nonzero_exit_witness :
    get_readme_content okResp "https://github.com/o/r".data
      = ⟨FetchOutcome.ok "hi".data,
         ["https://raw.githubusercontent.com/o/r/main/README.md".data]⟩
    ∧ ((main okResp c6tool "https://github.com/o/r".data none).term
        = Term.exited 1
      ∧ Event.out ("Error calling gemini: ".data ++ "boom".data)
          ∈ (main okResp c6tool "https://github.com/o/r".data none).events
      ∧ Event.out ("Stderr: ".data ++ "badness".data)
          ∈ (main okResp c6tool "https://github.com/o/r".data none).events
      ∧ Event.out ("\n".data ++ sep40)
          ∉ (main okResp c6tool "https://github.com/o/r".data none).events
      ∧ Event.out (sep40 ++ "\n".data)
          ∉ (main okResp c6tool "https://github.com/o/r".data none).events) :=
  ⟨by decide,
   c6_tool_nonzero_exit okResp c6tool "https://github.com/o/r".data none
     "hi".data ["https://raw.githubusercontent.com/o/r/main/README.md".data]
     "boom".data "badness".data (by decide) (by decide)⟩

/-- C7: when the external executable cannot be located, the program prints a
dedicated "tool not found" diagnostic — different from every message the
non-zero-exit path can print — and terminates with exit code 1. -/
theorem c7_tool_missing (resp : List Char → FetchResp)
    (tool : List Char → ToolResult) (url : List Char)
    (styleArg : Option (List Char)) (content : List Char)
    (reqs : List (List Char))
    (hfetch : get_readme_content resp url = ⟨FetchOutcome.ok content, reqs⟩)
    (htool : tool (promptFor content (styleArg.getD defaultStyle)
        (repoNameOf url))
      = ToolResult.fileNotFound) :
    generate_song tool content (styleArg.getD defaultStyle) (repoNameOf url)
      = SongOutcome.exited 1 [notFoundMsg]
    ∧ (main resp tool url styleArg).term = Term.exited 1
    ∧ Event.out notFoundMsg ∈ (main resp tool url styleArg).events
    ∧ (∀ excText : List Char,
        notFoundMsg ≠ "Error calling gemini: ".data ++ excText)
    ∧ (∀ excText stderr : List Char,
        ([notFoundMsg] : List (List Char))
          ≠ ["Error calling gemini: ".data ++ excText,
             "Stderr: ".data ++ stderr]) := by
  have hgen : generate_song tool content (styleArg.getD defaultStyle)
      (repoNameOf url) = SongOutcome.exited 1 [notFoundMsg] := by
    unfold generate_song
    rw [htool]
  have hmain : main resp tool url styleArg
      = ⟨[Event.out ("🎵 Tuning instruments for ".data ++ repoNameOf url
            ++ "...".data),
          Event.out "📜 Reading the sacred texts (README)...".data]
          ++ reqs.map Event.request
          ++ [Event.out ("🎸 Composing in the style of: ".data
                ++ styleArg.getD defaultStyle ++ "...".data)]
          ++ [Event.out notFoundMsg], Term.exited 1⟩ := by
    unfold main
    rw [hfetch]
    show (match generate_song tool content (styleArg.getD defaultStyle)
        (repoNameOf url) with
      | SongOutcome.ok song => _
      | SongOutcome.exited c msgs => _) = _
    rw [hgen]
    rfl
  refine ⟨hgen, by rw [hmain], ?_, ?_, ?_⟩
  · rw [hmain]
    simp
  · intro excText h
    have h6 := congrArg (List.take 6) h
    exact absurd (show ("Error:".data : List Char) = "Error ".data from h6)
      (by decide)
  · intro excText stderr h
    have hlen := congrArg List.length h
    simp at hlen

theorem c7_tool_missing_witness :
    get_readme_content okResp "https://github.com/o/r".data
      = ⟨FetchOutcome.ok "hi".data,
         ["https://raw.githubusercontent.com/o/r/main/README.md".data]⟩
    ∧ (generate_song (fun _ => ToolResult.fileNotFound) "hi".data
        defaultStyle (repoNameOf "https://github.com/o/r".data)
        = SongOutcome.exited 1 [notFoundMsg]
      ∧ (main okResp (fun _ => ToolResult.fileNotFound)
          "https://github.com/o/r".data none).term = Term.exited 1
      ∧ notFoundMsg ≠ "Error calling gemini: ".data ++ "x".data
      ∧ ([notFoundMsg] : List (List Char))
          ≠ ["Error calling gemini: ".data ++ "x".data,
             "Stderr: ".data ++ "y".data]) :=
  ⟨by decide,
   ⟨(c7_tool_missing okResp (fun _ => ToolResult.fileNotFound)
       "https://github.com/o/r".data none "hi".data
       ["https://raw.githubusercontent.com/o/r/main/README.md".data]
       (by decide) (by decide)).1,
    (c7_tool_missing okResp (fun _ => ToolResult.fileNotFound)
       "https://github.com/o/r".data none "hi".data
       ["https://raw.githubusercontent.com/o/r/main/README.md".data]
       (by decide) (by decide)).2.1,
    (c7_tool_missing okResp (fun _ => ToolResult.fileNotFound)
       "https://github.com/o/r".data none "hi".data
       ["https://raw.githubusercontent.com/o/r/main/README.md".data]
       (by decide) (by decide)).2.2.2.1 "x".data,
    (c7_tool_missing okResp (fun _ => ToolResult.fileNotFound)
       "https://github.com/o/r".data none "hi".data
       ["https://raw.githubusercontent.com/o/r/main/README.md".data]
       (by decide) (by decide)).2.2.2.2 "x".data "y".data⟩⟩

/-- C3, counterexample: the claim says normalization changes nothing except
a trailing slash and a trailing `.git`, but `replace(".git", "")` removes an
interior `.git` as well: on `https://github.com/a/my.gitrepo` (no trailing
slash, no trailing `.git`, so the claimed normalization is the identity, as
the first conjunct shows) the code changes the URL and extracts the repo name
`myrepo` instead of `my.gitrepo`. -/
theorem c3_counterexample :
    stripGitSuffix (rstripSlash "https://github.com/a/my.gitrepo".data)
      = "https://github.com/a/my.gitrepo".data
    ∧ normalizeUrl "https://github.com/a/my.gitrepo".data
        = "https://github.com/a/myrepo".data
    ∧ normalizeUrl "https://github.com/a/my.gitrepo".data
        ≠ "https://github.com/a/my.gitrepo".data
    ∧ extractOwnerRepo "https://github.com/a/my.gitrepo".data
        = some ("a".data, "myrepo".data)
    ∧ ("myrepo".data : List Char) ≠ "my.gitrepo".data := by decide

/-- C3, amended: normalization removes all trailing slashes and every
occurrence of the literal substring `.git` anywhere in the URL (not only a
trailing one); consequently, for a URL `https://github.com/<owner>/<repo>`
whose owner and repo are nonempty, slash-free, and in which `.git` does not
occur, an optional trailing slash or `.git` suffix is removed exactly and
owner and repo are extracted exactly. -/
theorem c3_amended (owner repo tail : List Char) (ho : owner ≠ [])
    (ho2 : ∀ c ∈ owner, c ≠ '/') (hr : repo ≠ []) (hr2 : ∀ c ∈ repo, c ≠ '/')
    (hclean : hasDotGit (ghUrl owner repo) = false)
    (htail : tail ∈ [([] : List Char), ['/'], ".git".data, ".git/".data]) :
    normalizeUrl (ghUrl owner repo ++ tail) = ghUrl owner repo
    ∧ extractOwnerRepo (ghUrl owner repo ++ tail) = some (owner, repo) := by
  have hn := normalizeUrl_ghUrl owner repo tail hr hr2 hclean htail
  refine ⟨hn, ?_⟩
  unfold extractOwnerRepo
  rw [hn]
  exact reSearchGh_ghUrl owner repo ho ho2 hr hr2

theorem c3_amended_witness :
    (hasDotGit (ghUrl "foo".data "bar".data) = false
      ∧ ".git".data ∈ [([] : List Char), ['/'], ".git".data, ".git/".data]
      ∧ ghUrl "foo".data "bar".data ++ ".git".data
          = "https://github.com/foo/bar.git".data)
    ∧ (normalizeUrl (ghUrl "foo".data "bar".data ++ ".git".data)
        = ghUrl "foo".data "bar".data
      ∧ extractOwnerRepo (ghUrl "foo".data "bar".data ++ ".git".data)
          = some ("foo".data, "bar".data)) :=
  ⟨⟨by decide, by decide, by decide⟩,
   c3_amended "foo".data "bar".data ".git".data (by decide) (by decide)
     (by decide) (by decide) (by decide) (by decide)⟩

/-- C8, counterexample: the display name is not obtained by stripping a
`.git` suffix from the final path segment — `replace(".git", "")` removes an
interior `.git` too: for `https://github.com/foo/v1.gitx` the final segment
is `v1.gitx`, which has no `.git` suffix, yet the code derives `v1x`. -/
theorem c8_counterexample :
    pyLastSeg "https://github.com/foo/v1.gitx".data = "v1.gitx".data
    ∧ stripGitSuffix (pyLastSeg "https://github.com/foo/v1.gitx".data)
        = "v1.gitx".data
    ∧ repoNameOf "https://github.com/foo/v1.gitx".data = "v1x".data
    ∧ ("v1x".data : List Char) ≠ "v1.gitx".data := by decide

/-- C8, amended: the display name is the final path segment of the input URL
with every occurrence of `.git` removed; when the final segment is
`<seg>.git` with `seg` slash-free and `.git`-free this equals `seg`, the
omitted style argument defaults to `"Epic Power Metal"`, and in particular
`https://github.com/foo/bar.git` yields display name `bar`. -/
theorem c8_amended (pre seg : List Char) (h1 : ∀ c ∈ seg, c ≠ '/')
    (h2 : hasDotGit seg = false) :
    repoNameOf (pre ++ '/' :: (seg ++ ".git".data)) = seg
    ∧ (none : Option (List Char)).getD defaultStyle = "Epic Power Metal".data
    ∧ repoNameOf "https://github.com/foo/bar.git".data = "bar".data := by
  refine ⟨?_, by decide, by decide⟩
  unfold repoNameOf
  rw [pyLastSeg_append pre (seg ++ ".git".data) ?hy]
  case hy =>
    intro c hc
    rcases List.mem_append.mp hc with h | h
    · exact h1 c h
    · simp only [List.mem_cons, List.not_mem_nil, or_false] at h
      rcases h with h | h | h | h <;> (subst h; decide)
  exact removeGit_strip seg h2

theorem c8_amended_witness :
    ((∀ c ∈ ("bar".data : List Char), c ≠ '/')
      ∧ hasDotGit "bar".data = false
      ∧ "https://github.com/foo".data ++ '/' :: ("bar".data ++ ".git".data)
          = "https://github.com/foo/bar.git".data)
    ∧ (repoNameOf ("https://github.com/foo".data
          ++ '/' :: ("bar".data ++ ".git".data)) = "bar".data
      ∧ (none : Option (List Char)).getD defaultStyle
          = "Epic Power Metal".data
      ∧ repoNameOf "https://github.com/foo/bar.git".data = "bar".data) :=
  ⟨⟨by decide, by decide, by decide⟩,
   c8_amended "https://github.com/foo".data "bar".data (by decide) (by decide)⟩

/-- C9, counterexample: it is not true that every input containing
`github.com/<seg>/<seg>` is accepted with those segments: for the input
`https://host.example/github.com/.git/b` (which literally contains
`github.com/` followed by the segments `.git` and `b`, as the first conjunct
shows) normalization first deletes the `.git`, leaving `github.com//b`,
which the regex rejects — the resolver reports a parse error instead of
extracting `(.git, b)`. -/
theorem c9_counterexample :
    "https://host.example/github.com/.git/b".data
      = "https://host.example/".data
          ++ ("github.com/".data ++ (".git".data ++ '/' :: "b".data))
    ∧ extractOwnerRepo "https://host.example/github.com/.git/b".data = none
    ∧ (none : Option (List Char × List Char))
        ≠ some (".git".data, "b".data) := by decide

/-- C9, amended: the regex search is an unanchored substring search, so any
input `pre ++ github.com/<owner>/<repo>` — the host position or not — is
accepted with those segments extracted, provided the pattern does not also
match inside `pre`, the segments are nonempty and slash-free, and `.git`
occurs nowhere in the input (so that normalization leaves it intact); in
particular `https://evil.example/github.com/a/b` parses as owner `a`,
repo `b` rather than being rejected. -/
theorem c9_amended (pre owner repo : List Char) (ho : owner ≠ [])
    (ho2 : ∀ c ∈ owner, c ≠ '/') (hr : repo ≠ [])
    (hr2 : ∀ c ∈ repo, c ≠ '/')
    (hclean : hasDotGit (pre ++ ("github.com/".data ++ (owner ++ '/' :: repo)))
      = false)
    (hpre : ∀ i, i < pre.length →
      ((pre ++ ("github.com/".data ++ (owner ++ '/' :: repo))).drop i).take 11
        ≠ ghLit) :
    extractOwnerRepo (pre ++ ("github.com/".data ++ (owner ++ '/' :: repo)))
      = some (owner, repo) := by
  have hnorm : normalizeUrl
      (pre ++ ("github.com/".data ++ (owner ++ '/' :: repo)))
      = pre ++ ("github.com/".data ++ (owner ++ '/' :: repo)) := by
    unfold normalizeUrl
    have hsp : pre ++ ("github.com/".data ++ (owner ++ '/' :: repo))
        = (pre ++ "github.com/".data ++ owner ++ ['/']) ++ repo := by
      simp
    rw [hsp, rstripSlash_append_clean _ _ hr hr2, ← hsp,
      removeGit_eq_self _ hclean]
  unfold extractOwnerRepo
  rw [hnorm]
  rw [reSearchGh_skip_all pre ("github.com/".data ++ (owner ++ '/' :: repo))
    hpre]
  exact reSearchGh_hit _ _ (matchTail_eq owner repo ho ho2 hr hr2)

theorem c9_amended_witness :
    ("https://evil.example/".data
        ++ ("github.com/".data ++ ("a".data ++ '/' :: "b".data))
      = "https://evil.example/github.com/a/b".data
      ∧ hasDotGit ("https://evil.example/".data
          ++ ("github.com/".data ++ ("a".data ++ '/' :: "b".data))) = false)
    ∧ extractOwnerRepo ("https://evil.example/".data
        ++ ("github.com/".data ++ ("a".data ++ '/' :: "b".data)))
        = some ("a".data, "b".data) :=
  ⟨⟨by decide, by decide⟩,
   c9_amended "https://evil.example/".data "a".data "b".data (by decide)
     (by decide) (by decide) (by decide) (by decide) (by decide)⟩

end Bard
